import Mathlib

/-!
Shallow embedding of the adaptive question-selection and mastery-update
policy of the edukid quiz application, together with the client-side
session view-state machine.

Server side (src/server/routes.ts): the `getNextQuestion` handler maps the
student's mastery score to a target difficulty, filters the topic's
questions by that difficulty (falling back to all of the topic's
questions), and picks one at a random index; the `submitAnswer` handler
grades by string equality, appends a learning event, upserts the mastery
score to 1.0 or 0.0, and returns an outcome record.

Client side (the GameEngine component): phases `question`, `result`,
`game`, `loading`; an answer submission moves `question → result`, the
continue button moves `result → game` every third answered question and
`result → loading → question` otherwise, and the game interstitial is
driven by periodic ticks of a progress counter.

Numbers that are JavaScript floats in the source (mastery scores,
Math.random) are modelled as rationals; the values the code actually
stores and compares (0, 1, multiples of 1/5, indices) are exactly
representable, so no rounding behaviour is lost.
-/

namespace EduKid

/-- A question row as used by the handlers in src/server/routes.ts:
`topicId`, `content`, `correctAnswer`, `distractors`, `difficulty`,
optional `explanation` (nullable column). -/
structure Question where
  id : Nat
  topicId : Nat
  content : String
  correctAnswer : String
  distractors : List String
  difficulty : Int
  explanation : Option String
deriving DecidableEq, Repr

/-- A row of the mastery table, keyed by (studentId, topicId), holding the
scalar score. -/
structure MasteryEntry where
  studentId : Nat
  topicId : Nat
  score : ℚ
deriving DecidableEq, Repr

/-- An append-only learning-event row: student id, question id,
correctness, time taken (seconds). -/
structure LearningEvent where
  studentId : Nat
  questionId : Nat
  correct : Bool
  timeTaken : Int
deriving DecidableEq, Repr

/-- The server-side store the two learning handlers read and write:
the question table, the mastery table and the learning-event log. -/
structure Store where
  questions : List Question
  masteries : List MasteryEntry
  events : List LearningEvent
deriving DecidableEq, Repr

/-- Modelled from the spec: `storage.getMastery(studentId, topicId)`
(src/server/storage.ts is not in the source tree); the spec's mastery
store interface is `getMastery(studentId, topicId) → Mastery | absent`,
a lookup in the table keyed by (student id, topic id). -/
def getMastery (s : Store) (studentId topicId : Nat) : Option MasteryEntry :=
  s.masteries.find? (fun m => m.studentId == studentId && m.topicId == topicId)

/-- Modelled from the spec: `storage.getQuestionsByTopic(topicId)`
(src/server/storage.ts is not in the source tree); the spec's question
store interface is `listQuestionsByTopic(topicId) → [Question]`. -/
def getQuestionsByTopic (s : Store) (topicId : Nat) : List Question :=
  s.questions.filter (fun q => q.topicId == topicId)

/-- Modelled from the spec: `storage.getQuestion(id)` (src/server/storage.ts
is not in the source tree); the spec's interface is
`getQuestion(id) → Question | NotFound`. -/
def getQuestion (s : Store) (id : Nat) : Option Question :=
  s.questions.find? (fun q => q.id == id)

/-- Modelled from the spec: `storage.logLearningEvent` (src/server/storage.ts
is not in the source tree); the spec's event log interface is
`append(studentId, questionId, correct, timeTaken)` on an append-only log. -/
def logLearningEvent (s : Store) (studentId questionId : Nat) (correct : Bool)
    (timeTaken : Int) : Store :=
  { s with events := s.events ++ [⟨studentId, questionId, correct, timeTaken⟩] }

/-- Upsert on the mastery table, as a list operation: when a row with the
key exists, set its score in place; otherwise append a fresh row. -/
def upsertScore (l : List MasteryEntry) (studentId topicId : Nat)
    (score : ℚ) : List MasteryEntry :=
  if l.any (fun m => m.studentId == studentId && m.topicId == topicId) then
    l.map (fun m =>
      if m.studentId == studentId && m.topicId == topicId then
        { m with score := score } else m)
  else
    l ++ [{ studentId := studentId, topicId := topicId, score := score }]

/-- Modelled from the spec: `storage.updateMastery` (src/server/storage.ts is
not in the source tree); the spec's mastery store interface is
`upsertMastery(studentId, topicId, score)`: created lazily on first answer
for the (student, topic) pair, mutated in place afterwards. -/
def updateMastery (s : Store) (studentId topicId : Nat) (score : ℚ) : Store :=
  { s with masteries := upsertScore s.masteries studentId topicId score }

/-- Integer clamp, `clamp lo hi x = max lo (min hi x)`, the shape of the
JavaScript `Math.max(lo, Math.min(hi, x))` idiom. -/
def clamp (lo hi x : Int) : Int := max lo (min hi x)

/-- routes.ts line 148: `const currentScore = topicMastery?.score || 0` —
the stored score, or 0 when no mastery record exists (a stored score of 0
is falsy in JavaScript and also yields 0, the same value). -/
def currentScore (s : Store) (studentId topicId : Nat) : ℚ :=
  ((getMastery s studentId topicId).map MasteryEntry.score).getD 0

/-- routes.ts line 154:
`Math.max(1, Math.min(5, Math.floor(currentScore * 5) + 1))`. -/
def targetDifficulty (score : ℚ) : Int :=
  max 1 (min 5 (⌊score * 5⌋ + 1))

/-- Response of the `getNextQuestion` handler: 401 when there is no
session, 404 when the topic has no questions, otherwise the JSON body,
which is the question at the random index (`none` would model `undefined`
from an out-of-range index). -/
inductive NextQuestionResponse
  | unauthenticated
  | notFound
  | ok (q : Option Question)
deriving DecidableEq, Repr

/-- The `getNextQuestion` handler, routes.ts lines 142-167. `rand` stands
for the value of `Math.random()`, a number in [0, 1); the selected index
is `Math.floor(rand * candidateQuestions.length)`. -/
def getNextQuestion (s : Store) (session : Option Nat) (topicId : Nat)
    (rand : ℚ) : NextQuestionResponse :=
  match session with
  | none => .unauthenticated
  | some userId =>
    let score := currentScore s userId topicId
    let d := targetDifficulty score
    let allQuestions := getQuestionsByTopic s topicId
    if allQuestions.isEmpty then .notFound
    else
      let filtered := allQuestions.filter (fun q => q.difficulty == d)
      let candidateQuestions := if filtered.isEmpty then allQuestions else filtered
      .ok (candidateQuestions[(⌊rand * candidateQuestions.length⌋).toNat]?)

/-- JavaScript `a || b` on a nullable string `a`: `b` when `a` is
null/undefined or the empty string (both falsy), otherwise `a`. -/
def orString (a : Option String) (b : String) : String :=
  match a with
  | none => b
  | some t => if t = "" then b else t

/-- The fixed congratulatory feedback for a correct answer. -/
def praiseMessage : String := "Great job!"

/-- The fallback feedback when an incorrect answer's question has no
(truthy) explanation. -/
def fallbackMessage : String := "Keep trying!"

/-- The JSON body returned by the `submitAnswer` handler,
routes.ts lines 186-192. -/
structure Outcome where
  correct : Bool
  correctAnswer : String
  coinsEarned : Nat
  newMastery : ℚ
  feedback : String
deriving DecidableEq, Repr

/-- Response of the `submitAnswer` handler: 401 without a session, 404 for
an unknown question id, otherwise the outcome body. -/
inductive SubmitResponse
  | unauthenticated
  | notFound
  | ok (o : Outcome)
deriving DecidableEq, Repr

/-- The `submitAnswer` handler, routes.ts lines 169-193: grade by exact
string equality, append one learning event, upsert mastery to 1.0 or 0.0,
re-read the mastery record, and build the outcome. Returns the store after
the handler together with the response. -/
def submitAnswer (s : Store) (session : Option Nat) (questionId : Nat)
    (answer : String) (timeTaken : Int) : Store × SubmitResponse :=
  match session with
  | none => (s, .unauthenticated)
  | some userId =>
    match getQuestion s questionId with
    | none => (s, .notFound)
    | some question =>
      let isCorrect := question.correctAnswer == answer
      let s1 := logLearningEvent s userId questionId isCorrect timeTaken
      let s2 := updateMastery s1 userId question.topicId (if isCorrect then 1 else 0)
      let masteryRecord := getMastery s2 userId question.topicId
      (s2, .ok {
        correct := isCorrect
        correctAnswer := question.correctAnswer
        coinsEarned := if isCorrect then 10 else 0
        newMastery := ((masteryRecord.map MasteryEntry.score).getD 0)
        feedback := if isCorrect then praiseMessage
                    else orString question.explanation fallbackMessage })

/-!
Client-side session view-state machine, from the GameEngine component.
-/

/-- The four view phases (`type GamePhase`). -/
inductive GamePhase
  | question
  | game
  | result
  | loading
deriving DecidableEq, Repr

/-- `const GAME_DURATION = 5000` — total interstitial duration in
milliseconds. -/
def GAME_DURATION : Nat := 5000

/-- The interval period of the game-phase ticker,
`setInterval(..., GAME_DURATION / 50)`. -/
def tickPeriod : Nat := GAME_DURATION / 50

/-- The client component state the machine manipulates: current phase,
`questionsAnswered`, the game progress counter, whether `result` is
non-null, whether a refetch of the next question is pending, and a count
of answer submissions sent to the server (each `submitAnswer(...)`
mutation call). -/
structure ClientState where
  phase : GamePhase
  questionsAnswered : Nat
  gameProgress : Nat
  hasResult : Bool
  fetchPending : Bool
  submissionsSent : Nat
deriving DecidableEq, Repr

/-- Initial component state: `useState` defaults — phase `question`,
counters 0, no result, no pending fetch. -/
def initClient : ClientState :=
  { phase := .question, questionsAnswered := 0, gameProgress := 0,
    hasResult := false, fetchPending := false, submissionsSent := 0 }

/-- `handleAnswer`: bails out when a result is already present or the
phase is not `question`; otherwise submits the answer (one mutation sent)
and, on the response, records the result, increments `questionsAnswered`
and moves to `result`. The mutation round trip is modelled as one atomic
step. -/
def handleAnswer (s : ClientState) : ClientState :=
  if s.hasResult || s.phase ≠ .question then s
  else { s with phase := .result, hasResult := true,
                questionsAnswered := s.questionsAnswered + 1,
                submissionsSent := s.submissionsSent + 1 }

/-- `handleContinue`: when `questionsAnswered % 3 === 0 && questionsAnswered > 0`
enter the game interstitial with progress 0 and clear the result;
otherwise clear the result, enter `loading` and start a refetch whose
`.then` will set the phase back to `question`. -/
def handleContinue (s : ClientState) : ClientState :=
  if s.questionsAnswered % 3 == 0 && s.questionsAnswered > 0 then
    { s with phase := .game, gameProgress := 0, hasResult := false }
  else
    { s with phase := .loading, hasResult := false, fetchPending := true }

/-- One tick of the game-phase interval: with `prev >= 100` clear the
interval, move to `question` and trigger a refetch, resetting progress to
0; otherwise advance progress by 2. The interval only exists while the
phase is `game` (the effect tears it down otherwise). -/
def gameTick (s : ClientState) : ClientState :=
  if s.phase = .game then
    if s.gameProgress ≥ 100 then
      { s with gameProgress := 0, phase := .question, fetchPending := true }
    else
      { s with gameProgress := s.gameProgress + 2 }
  else s

/-- A pending refetch settles: `refetch().then(() => setPhase("question"))`
on the continue path moves `loading` to `question`; on the game path the
phase is already `question` when the fetch resolves, so only the pending
flag clears. -/
def settleFetch (s : ClientState) : ClientState :=
  if s.fetchPending then
    { s with fetchPending := false,
             phase := if s.phase = .loading then .question else s.phase }
  else s

/-- Events driving the machine: an answer click (with its graded
response), a continue click (the button is rendered only in the `result`
phase with a result present), an interval tick, and the resolution of a
pending fetch. -/
inductive ClientEvent
  | answer
  | continueBtn
  | tick
  | fetchSettled
deriving DecidableEq, Repr

/-- The step function of the view-state machine. -/
def step (s : ClientState) : ClientEvent → ClientState
  | .answer => handleAnswer s
  | .continueBtn => if s.phase = .result ∧ s.hasResult then handleContinue s else s
  | .tick => gameTick s
  | .fetchSettled => settleFetch s

/-- Run a list of events from a state. -/
def run (s : ClientState) (es : List ClientEvent) : ClientState :=
  es.foldl step s

/-- The option list built for each question render:
`[question.correctAnswer, ...question.distractors]`, before the random
shuffle (`.sort(() => Math.random() - 0.5)` produces some permutation of
this list). -/
def allOptions (q : Question) : List String :=
  q.correctAnswer :: q.distractors

/-- A tiny concrete store for instantiating the universally quantified
theorems: one topic (id 7) with one difficulty-1 question. -/
def demoQuestion : Question :=
  { id := 1, topicId := 7, content := "What is 5 + 3?",
    correctAnswer := "8", distractors := ["7", "9", "6"],
    difficulty := 1, explanation := some "5 + 3 = 8" }

/-- The store holding just `demoQuestion`, with empty mastery table and
event log. -/
def demoStore : Store :=
  { questions := [demoQuestion], masteries := [], events := [] }

/-!
Theorems.
-/

/-- C1: for every mastery score m in [0,1], the target difficulty computed
by the question selector equals clamp(floor(m*5)+1, 1, 5); it is an
integer in [1,5], monotone non-decreasing in m, with
targetDifficulty 0 = 1, targetDifficulty 0.99 = 5, targetDifficulty 1 = 5;
and when no mastery record exists for (student, topic) the score used is
0. -/
theorem targetDifficulty_spec :
    (∀ m : ℚ, 0 ≤ m → m ≤ 1 →
      targetDifficulty m = clamp 1 5 (⌊m * 5⌋ + 1)
      ∧ 1 ≤ targetDifficulty m ∧ targetDifficulty m ≤ 5)
    ∧ (∀ m m' : ℚ, m ≤ m' → targetDifficulty m ≤ targetDifficulty m')
    ∧ targetDifficulty 0 = 1
    ∧ targetDifficulty (99 / 100) = 5
    ∧ targetDifficulty 1 = 5
    ∧ (∀ (s : Store) (studentId topicId : Nat),
        getMastery s studentId topicId = none →
        currentScore s studentId topicId = 0) := by
  refine ⟨fun m _ _ => ⟨rfl, le_max_left _ _, max_le (by norm_num) (min_le_left _ _)⟩,
    fun m m' h => ?_, ?_, ?_, ?_, fun s a b h => ?_⟩
  · exact max_le_max le_rfl (min_le_min le_rfl
      (add_le_add_right (Int.floor_le_floor (by nlinarith)) 1))
  · norm_num [targetDifficulty]
  · norm_num [targetDifficulty]
  · norm_num [targetDifficulty]
  · simp [currentScore, h]

/-- Witness for C1 at concrete inputs. -/
theorem targetDifficulty_spec_witness :
    (targetDifficulty (1 / 2) = clamp 1 5 (⌊(1 / 2 : ℚ) * 5⌋ + 1)
      ∧ 1 ≤ targetDifficulty (1 / 2 : ℚ) ∧ targetDifficulty (1 / 2 : ℚ) ≤ 5)
    ∧ targetDifficulty (1 / 4 : ℚ) ≤ targetDifficulty (3 / 4 : ℚ)
    ∧ currentScore demoStore 1 2 = 0 :=
  ⟨targetDifficulty_spec.1 (1 / 2) (by norm_num) (by norm_num),
   targetDifficulty_spec.2.1 (1 / 4) (3 / 4) (by norm_num),
   targetDifficulty_spec.2.2.2.2.2 demoStore 1 2 rfl⟩

/-- C2: for an authenticated request with Math.random value in [0,1), the
selector answers 404 exactly when the topic has zero questions; otherwise
it returns a question of the requested topic, drawn from the questions at
the target difficulty, or — when that set is empty — from all of the
topic's questions. -/
theorem getNextQuestion_spec (s : Store) (userId topicId : Nat) (rand : ℚ)
    (h0 : 0 ≤ rand) (h1 : rand < 1) :
    (getNextQuestion s (some userId) topicId rand = .notFound
      ↔ getQuestionsByTopic s topicId = [])
    ∧ (getQuestionsByTopic s topicId ≠ [] →
        ∃ q : Question,
          getNextQuestion s (some userId) topicId rand = .ok (some q)
          ∧ q.topicId = topicId
          ∧ (q ∈ (getQuestionsByTopic s topicId).filter
                (fun q' => q'.difficulty == targetDifficulty (currentScore s userId topicId))
             ∨ ((getQuestionsByTopic s topicId).filter
                  (fun q' => q'.difficulty == targetDifficulty (currentScore s userId topicId)) = []
                ∧ q ∈ getQuestionsByTopic s topicId))) := by
  have hunfold : getNextQuestion s (some userId) topicId rand =
      (if (getQuestionsByTopic s topicId).isEmpty then NextQuestionResponse.notFound
       else
         NextQuestionResponse.ok
           ((if ((getQuestionsByTopic s topicId).filter
                (fun q' => q'.difficulty == targetDifficulty (currentScore s userId topicId))).isEmpty
             then getQuestionsByTopic s topicId
             else (getQuestionsByTopic s topicId).filter
                (fun q' => q'.difficulty == targetDifficulty (currentScore s userId topicId)))[
             (⌊rand * (((if ((getQuestionsByTopic s topicId).filter
                (fun q' => q'.difficulty == targetDifficulty (currentScore s userId topicId))).isEmpty
             then getQuestionsByTopic s topicId
             else (getQuestionsByTopic s topicId).filter
                (fun q' => q'.difficulty == targetDifficulty (currentScore s userId topicId))).length : ℚ))⌋).toNat]?)) := rfl
  by_cases he : (getQuestionsByTopic s topicId).isEmpty
  · have hnil : getQuestionsByTopic s topicId = [] := List.isEmpty_iff.mp he
    refine ⟨?_, fun hne => absurd hnil hne⟩
    rw [hunfold, if_pos he]
    simp [hnil]
  · have hne : getQuestionsByTopic s topicId ≠ [] := by
      simpa [List.isEmpty_iff] using he
    rw [hunfold, if_neg he]
    set filtered := (getQuestionsByTopic s topicId).filter
        (fun q' => q'.difficulty == targetDifficulty (currentScore s userId topicId)) with hfil
    set cand := if filtered.isEmpty then getQuestionsByTopic s topicId else filtered with hcand
    have hcne : cand ≠ [] := by
      rw [hcand]
      split
      · exact hne
      · rename_i hf
        simpa [List.isEmpty_iff] using hf
    have hpos : 0 < cand.length := List.length_pos.mpr hcne
    have hfl0 : 0 ≤ ⌊rand * (cand.length : ℚ)⌋ := Int.floor_nonneg.mpr (by positivity)
    have hflt : ⌊rand * (cand.length : ℚ)⌋ < (cand.length : ℤ) := by
      apply Int.floor_lt.mpr
      push_cast
      calc rand * (cand.length : ℚ) < 1 * (cand.length : ℚ) :=
            mul_lt_mul_of_pos_right h1 (by exact_mod_cast hpos)
        _ = (cand.length : ℚ) := one_mul _
    have hidx : (⌊rand * (cand.length : ℚ)⌋).toNat < cand.length := by omega
    obtain ⟨q, hq⟩ : ∃ x, cand[(⌊rand * (cand.length : ℚ)⌋).toNat]? = some x :=
      ⟨_, List.getElem?_eq_getElem hidx⟩
    have hmemc : q ∈ cand := List.getElem?_mem hq
    have hmemall : q ∈ getQuestionsByTopic s topicId := by
      rw [hcand] at hmemc
      by_cases hf : filtered.isEmpty
      · rwa [if_pos hf] at hmemc
      · rw [if_neg hf, hfil] at hmemc
        exact (List.mem_filter.mp hmemc).1
    refine ⟨⟨fun hcontra => by simp at hcontra, fun hcontra => absurd hcontra hne⟩, fun _ => ?_⟩
    refine ⟨q, by rw [hq], ?_, ?_⟩
    · have hqall := hmemall
      unfold getQuestionsByTopic at hqall
      simpa using (List.mem_filter.mp hqall).2
    · by_cases hf : filtered.isEmpty
      · exact Or.inr ⟨List.isEmpty_iff.mp hf, hmemall⟩
      · refine Or.inl ?_
        have hm := List.getElem?_mem hq
        rw [hcand, if_neg hf] at hm
        exact hm

/-- After setting the score of every row matching the key, looking the key
up yields the new score, provided a matching row exists. -/
theorem find?_map_setScore (l : List MasteryEntry) (a b : Nat) (v : ℚ)
    (h : l.any (fun m => m.studentId == a && m.topicId == b) = true) :
    ((l.map (fun m => if m.studentId == a && m.topicId == b then
        { m with score := v } else m)).find?
      (fun m => m.studentId == a && m.topicId == b)).map MasteryEntry.score
      = some v := by
  induction l with
  | nil => simp at h
  | cons m l ih =>
    by_cases hm : (m.studentId == a && m.topicId == b) = true
    · simp only [List.map_cons, if_pos hm]
      rw [List.find?_cons_of_pos _ (by simpa using hm)]
      rfl
    · simp only [List.map_cons, if_neg hm]
      rw [List.find?_cons_of_neg _ (by simpa using hm)]
      apply ih
      simpa [hm] using h

/-- Looking up the key of an upsert returns the upserted score. -/
theorem find?_upsertScore (l : List MasteryEntry) (a b : Nat) (v : ℚ) :
    ((upsertScore l a b v).find?
        (fun m => m.studentId == a && m.topicId == b)).map MasteryEntry.score
      = some v := by
  unfold upsertScore
  by_cases h : l.any (fun m => m.studentId == a && m.topicId == b) = true
  · rw [if_pos h]
    exact find?_map_setScore l a b v h
  · rw [if_neg h]
    have hnone : l.find? (fun m => m.studentId == a && m.topicId == b) = none := by
      rw [List.find?_eq_none]
      intro x hx hp
      exact h (List.any_eq_true.mpr ⟨x, hx, hp⟩)
    rw [List.find?_append, hnone, Option.none_or]
    simp [List.find?]

/-- Lookup of the written key right after an upsert through the store
interface. -/
theorem getMastery_updateMastery (s : Store) (a b : Nat) (v : ℚ) :
    (getMastery (updateMastery s a b v) a b).map MasteryEntry.score = some v :=
  find?_upsertScore s.masteries a b v

/-- Every row after an upsert either carries the upserted score or was
already in the table. -/
theorem mem_upsertScore (l : List MasteryEntry) (a b : Nat) (v : ℚ) :
    ∀ m ∈ upsertScore l a b v, m.score = v ∨ m ∈ l := by
  intro m hm
  unfold upsertScore at hm
  by_cases h : l.any (fun m => m.studentId == a && m.topicId == b) = true
  · rw [if_pos h] at hm
    obtain ⟨m₀, hm₀, hf⟩ := List.mem_map.mp hm
    by_cases hk : (m₀.studentId == a && m₀.topicId == b) = true
    · rw [if_pos hk] at hf
      left
      rw [← hf]
    · rw [if_neg hk] at hf
      right
      rw [← hf]
      exact hm₀
  · rw [if_neg h] at hm
    rcases List.mem_append.mp hm with h1 | h2
    · right
      exact h1
    · left
      rw [List.mem_singleton.mp h2]

/-- State of the store after a successful `submitAnswer` call: the event
log gains exactly the one new event, the mastery table receives exactly
one upsert, and the question table is untouched. -/
theorem submitAnswer_some_state (s : Store) (userId questionId : Nat)
    (answer : String) (timeTaken : Int) (q : Question)
    (hq : getQuestion s questionId = some q) :
    (submitAnswer s (some userId) questionId answer timeTaken).1 =
      { questions := s.questions
        masteries := upsertScore s.masteries userId q.topicId
          (if q.correctAnswer == answer then 1 else 0)
        events := s.events ++
          [⟨userId, questionId, q.correctAnswer == answer, timeTaken⟩] } := by
  simp only [submitAnswer, hq, logLearningEvent, updateMastery]

/-- C3: after a graded submission the stored mastery score for (student,
topic of the answered question) is exactly 1 when the submission is
correct and exactly 0 when it is incorrect, regardless of any prior value,
and every submission keeps all stored mastery scores within [0,1]. -/
theorem recordAnswer_mastery_spec (s : Store) (userId questionId : Nat)
    (answer : String) (timeTaken : Int) (q : Question)
    (hq : getQuestion s questionId = some q) :
    (answer = q.correctAnswer →
      (getMastery (submitAnswer s (some userId) questionId answer timeTaken).1
          userId q.topicId).map MasteryEntry.score = some 1)
    ∧ (answer ≠ q.correctAnswer →
      (getMastery (submitAnswer s (some userId) questionId answer timeTaken).1
          userId q.topicId).map MasteryEntry.score = some 0)
    ∧ (∀ session : Option Nat,
        (∀ m ∈ s.masteries, 0 ≤ m.score ∧ m.score ≤ 1) →
        ∀ m ∈ (submitAnswer s session questionId answer timeTaken).1.masteries,
          0 ≤ m.score ∧ m.score ≤ 1) := by
  refine ⟨fun h => ?_, fun h => ?_, fun session hinv m hm => ?_⟩
  · have hb : (q.correctAnswer == answer) = true := by simp [h]
    have hveq : (if q.correctAnswer == answer then (1 : ℚ) else 0) = 1 := by
      simp [hb]
    rw [submitAnswer_some_state s userId questionId answer timeTaken q hq]
    show ((upsertScore s.masteries userId q.topicId
        (if q.correctAnswer == answer then 1 else 0)).find?
        (fun m => m.studentId == userId && m.topicId == q.topicId)).map
        MasteryEntry.score = some 1
    rw [hveq]
    exact find?_upsertScore s.masteries userId q.topicId 1
  · have hb : (q.correctAnswer == answer) = false := by
      simp only [beq_eq_false_iff_ne, ne_eq]
      exact fun hc => h hc.symm
    have hveq : (if q.correctAnswer == answer then (1 : ℚ) else 0) = 0 := by
      simp [hb]
    rw [submitAnswer_some_state s userId questionId answer timeTaken q hq]
    show ((upsertScore s.masteries userId q.topicId
        (if q.correctAnswer == answer then 1 else 0)).find?
        (fun m => m.studentId == userId && m.topicId == q.topicId)).map
        MasteryEntry.score = some 0
    rw [hveq]
    exact find?_upsertScore s.masteries userId q.topicId 0
  · match session with
    | none => exact hinv m hm
    | some userId' =>
      rw [submitAnswer_some_state s userId' questionId answer timeTaken q hq] at hm
      rcases mem_upsertScore s.masteries userId' q.topicId
          (if q.correctAnswer == answer then 1 else 0) m hm with hv | hold
      · rw [hv]
        split
        · norm_num
        · norm_num
      · exact hinv m hold

/-- Witness for C3: on the demo store, a correct answer to question 1
stores mastery 1 for (student 1, topic 7). -/
theorem recordAnswer_mastery_spec_witness :
    (getMastery (submitAnswer demoStore (some 1) 1 "8" 3).1 1
        demoQuestion.topicId).map MasteryEntry.score = some 1 :=
  (recordAnswer_mastery_spec demoStore 1 1 "8" 3 demoQuestion rfl).1 rfl

/-- The statement of claim C4 exactly as written: for an existing
question, the returned outcome carries the correctness flag from exact
case-sensitive string equality, the correct answer, 10 or 0 coins, the
updated mastery score, and as feedback the fixed congratulatory string
when correct and the question's explanation — with the fallback string
only when the explanation is absent — when incorrect. -/
def outcomeClaim : Prop :=
  ∀ (s : Store) (userId questionId : Nat) (answer : String) (timeTaken : Int)
    (q : Question) (o : Outcome),
    getQuestion s questionId = some q →
    (submitAnswer s (some userId) questionId answer timeTaken).2 = .ok o →
    o.correct = (q.correctAnswer == answer)
    ∧ o.correctAnswer = q.correctAnswer
    ∧ o.coinsEarned = (if q.correctAnswer == answer then 10 else 0)
    ∧ o.newMastery = ((getMastery
        (submitAnswer s (some userId) questionId answer timeTaken).1
        userId q.topicId).map MasteryEntry.score).getD 0
    ∧ o.feedback = (if q.correctAnswer == answer then praiseMessage
        else (match q.explanation with
              | some e => e
              | none => fallbackMessage))

/-- A question whose explanation column holds the empty string: present,
but falsy in JavaScript. -/
def emptyExplQuestion : Question :=
  { id := 2, topicId := 7, content := "What is 9 - 4?",
    correctAnswer := "5", distractors := ["4", "6"],
    difficulty := 1, explanation := some "" }

/-- A store holding just `emptyExplQuestion`. -/
def emptyExplStore : Store :=
  { questions := [emptyExplQuestion], masteries := [], events := [] }

/-- Counterexample for C4 as stated: for the question whose explanation is
the empty string (present, not absent), an incorrect submission gets the
fallback feedback, not the explanation, because the JavaScript `||`
treats the empty string as falsy. -/
theorem submitAnswer_outcome_counterexample : ¬ outcomeClaim := by
  intro h
  have hfb := (h emptyExplStore 1 2 "4" 3 emptyExplQuestion
      { correct := false, correctAnswer := "5", coinsEarned := 0,
        newMastery := 0, feedback := fallbackMessage }
      (by decide) (by decide)).2.2.2.2
  simp [emptyExplQuestion, fallbackMessage] at hfb

/-- C4 (amended): the outcome is as claimed, except that the fallback
feedback is used not only when the explanation is absent but also when it
is present and empty (the JavaScript `||` treats both as falsy). -/
theorem submitAnswer_outcome_spec (s : Store) (userId questionId : Nat)
    (answer : String) (timeTaken : Int) (q : Question)
    (hq : getQuestion s questionId = some q) :
    (submitAnswer s (some userId) questionId answer timeTaken).2 =
      .ok { correct := q.correctAnswer == answer
            correctAnswer := q.correctAnswer
            coinsEarned := if q.correctAnswer == answer then 10 else 0
            newMastery := if q.correctAnswer == answer then 1 else 0
            feedback := if q.correctAnswer == answer then praiseMessage
                        else orString q.explanation fallbackMessage } := by
  have hm := getMastery_updateMastery
    (logLearningEvent s userId questionId (q.correctAnswer == answer) timeTaken)
    userId q.topicId (if q.correctAnswer == answer then (1 : ℚ) else 0)
  simp only [submitAnswer, hq, hm, Option.getD_some]

/-- Witness for C4 (amended) on the demo store with an incorrect answer. -/
theorem submitAnswer_outcome_spec_witness :
    (submitAnswer demoStore (some 1) 1 "7" 3).2 =
      .ok { correct := demoQuestion.correctAnswer == "7"
            correctAnswer := demoQuestion.correctAnswer
            coinsEarned := if demoQuestion.correctAnswer == "7" then 10 else 0
            newMastery := if demoQuestion.correctAnswer == "7" then 1 else 0
            feedback := if demoQuestion.correctAnswer == "7" then praiseMessage
                        else orString demoQuestion.explanation fallbackMessage } :=
  submitAnswer_outcome_spec demoStore 1 1 "7" 3 demoQuestion rfl

/-- C5: a successful submission appends exactly one learning event —
recording student id, question id, correctness and time taken — performs
exactly one upsert on the mastery table, leaves the question table
unchanged, and a second successful submission appends a second event (no
deduplication). -/
theorem recordAnswer_frame_spec (s : Store) (userId questionId : Nat)
    (answer : String) (timeTaken : Int) (q : Question)
    (hq : getQuestion s questionId = some q) :
    ((submitAnswer s (some userId) questionId answer timeTaken).1.events
        = s.events ++ [⟨userId, questionId, q.correctAnswer == answer, timeTaken⟩])
    ∧ ((submitAnswer s (some userId) questionId answer timeTaken).1.masteries
        = upsertScore s.masteries userId q.topicId
            (if q.correctAnswer == answer then 1 else 0))
    ∧ ((submitAnswer s (some userId) questionId answer timeTaken).1.questions
        = s.questions)
    ∧ (∀ (userId₂ questionId₂ : Nat) (answer₂ : String) (timeTaken₂ : Int)
          (q₂ : Question),
        getQuestion s questionId₂ = some q₂ →
        (submitAnswer (submitAnswer s (some userId) questionId answer timeTaken).1
            (some userId₂) questionId₂ answer₂ timeTaken₂).1.events.length
          = s.events.length + 2) := by
  rw [submitAnswer_some_state s userId questionId answer timeTaken q hq]
  refine ⟨rfl, rfl, rfl, fun userId₂ questionId₂ answer₂ timeTaken₂ q₂ hq₂ => ?_⟩
  have hq₂' : getQuestion
      { questions := s.questions
        masteries := upsertScore s.masteries userId q.topicId
          (if q.correctAnswer == answer then 1 else 0)
        events := s.events ++
          [⟨userId, questionId, q.correctAnswer == answer, timeTaken⟩] }
      questionId₂ = some q₂ := hq₂
  rw [submitAnswer_some_state _ userId₂ questionId₂ answer₂ timeTaken₂ q₂ hq₂']
  simp

/-- Witness for C5: two successive submissions on the demo store append
two events. -/
theorem recordAnswer_frame_spec_witness :
    (submitAnswer (submitAnswer demoStore (some 1) 1 "8" 2).1
        (some 1) 1 "7" 4).1.events.length
      = demoStore.events.length + 2 :=
  (recordAnswer_frame_spec demoStore 1 1 "8" 2 demoQuestion rfl).2.2.2
    1 1 "7" 4 demoQuestion rfl

/-- C10: when `submitAnswer` fails — 401 without a session, 404 for an
unknown question id — the store is returned unchanged: no learning event
is appended and no mastery record is created or modified. -/
theorem submitAnswer_error_frame_spec (s : Store) (questionId : Nat)
    (answer : String) (timeTaken : Int) :
    submitAnswer s none questionId answer timeTaken = (s, .unauthenticated)
    ∧ (∀ userId : Nat, getQuestion s questionId = none →
        submitAnswer s (some userId) questionId answer timeTaken
          = (s, .notFound)) := by
  refine ⟨rfl, fun userId h => ?_⟩
  simp only [submitAnswer, h]

/-- Witness for C10: on the demo store, submitting against the unknown
question id 99 returns 404 with the store unchanged. -/
theorem submitAnswer_error_frame_spec_witness :
    submitAnswer demoStore (some 1) 99 "x" 1 = (demoStore, .notFound) :=
  (submitAnswer_error_frame_spec demoStore 99 "x" 1).2 1 rfl

/-- Witness for C2: on the demo store with rand = 1/2 the selector returns
a question of topic 7 from the candidate sets. -/
theorem getNextQuestion_spec_witness :
    ∃ q : Question,
      getNextQuestion demoStore (some 1) 7 (1 / 2) = .ok (some q)
      ∧ q.topicId = 7
      ∧ (q ∈ (getQuestionsByTopic demoStore 7).filter
            (fun q' => q'.difficulty == targetDifficulty (currentScore demoStore 1 7))
         ∨ ((getQuestionsByTopic demoStore 7).filter
              (fun q' => q'.difficulty == targetDifficulty (currentScore demoStore 1 7)) = []
            ∧ q ∈ getQuestionsByTopic demoStore 7)) :=
  (getNextQuestion_spec demoStore 1 7 (1 / 2) (by norm_num) (by norm_num)).2 (by decide)

/-- The continue handler, with its Bool test rewritten as the
corresponding proposition on questionsAnswered. -/
theorem handleContinue_eq (s : ClientState) :
    handleContinue s =
      (if s.questionsAnswered % 3 = 0 ∧ 0 < s.questionsAnswered
       then { s with phase := .game, gameProgress := 0, hasResult := false }
       else { s with phase := .loading, hasResult := false, fetchPending := true }) := by
  by_cases h : s.questionsAnswered % 3 = 0 ∧ 0 < s.questionsAnswered
  · rw [if_pos h]
    rcases h with ⟨h1, h2⟩
    simp [handleContinue, h1, h2]
  · rw [if_neg h]
    have hb : (s.questionsAnswered % 3 == 0 && decide (s.questionsAnswered > 0))
        = false := by
      by_contra hc
      rw [Bool.not_eq_false, Bool.and_eq_true] at hc
      exact h ⟨by simpa using hc.1, of_decide_eq_true hc.2⟩
    simp [handleContinue, hb]

/-- In the game phase with room below 100, n ticks advance the progress
counter by 2 each, leaving every other component unchanged. -/
theorem run_ticks (n : Nat) : ∀ s : ClientState, s.phase = .game →
    s.gameProgress + 2 * n ≤ 100 →
    run s (List.replicate n .tick) =
      { s with gameProgress := s.gameProgress + 2 * n } := by
  induction n with
  | zero =>
    rintro ⟨p, qa, gp, hr, fp, ss⟩ _ _
    show ClientState.mk p qa gp hr fp ss = ClientState.mk p qa (gp + 2 * 0) hr fp ss
    congr 1
  | succ n ih =>
    rintro ⟨p, qa, gp, hr, fp, ss⟩ hp hb
    obtain rfl : p = GamePhase.game := hp
    have hb' : gp + 2 * (n + 1) ≤ 100 := hb
    have hlt : gp < 100 := by omega
    have hstep : step (ClientState.mk .game qa gp hr fp ss) .tick
        = ClientState.mk .game qa (gp + 2) hr fp ss := by
      simp [step, gameTick, Nat.not_le.mpr hlt]
    have hrun : run (ClientState.mk .game qa gp hr fp ss)
          (List.replicate (n + 1) .tick)
        = run (ClientState.mk .game qa (gp + 2) hr fp ss)
          (List.replicate n .tick) := by
      rw [List.replicate_succ]
      show run (step (ClientState.mk .game qa gp hr fp ss) .tick)
          (List.replicate n .tick) = _
      rw [hstep]
    rw [hrun, ih (ClientState.mk .game qa (gp + 2) hr fp ss) rfl
      (show gp + 2 + 2 * n ≤ 100 by omega)]
    show ClientState.mk .game qa (gp + 2 + 2 * n) hr fp ss
        = ClientState.mk .game qa (gp + 2 * (n + 1)) hr fp ss
    congr 1
    omega

set_option maxRecDepth 20000 in
/-- C6: from the result phase, the continue action enters the game
interstitial exactly when questionsAnswered is a positive multiple of 3,
and otherwise enters loading and then question once the fetch settles;
along the concrete session trace the 3rd and 6th continues enter game and
the 1st, 2nd, 4th and 5th enter loading and then question. -/
theorem continue_transition_spec :
    (∀ s : ClientState, s.phase = .result → s.hasResult = true →
      (((step s .continueBtn).phase = .game)
        ↔ (s.questionsAnswered % 3 = 0 ∧ 0 < s.questionsAnswered))
      ∧ (¬ (s.questionsAnswered % 3 = 0 ∧ 0 < s.questionsAnswered) →
          (step s .continueBtn).phase = .loading
          ∧ (step (step s .continueBtn) .fetchSettled).phase = .question))
    ∧ ((run initClient [.answer, .continueBtn]).phase = .loading
      ∧ (run initClient [.answer, .continueBtn, .fetchSettled]).phase = .question
      ∧ (run initClient ([.answer, .continueBtn, .fetchSettled] ++
          [.answer, .continueBtn])).phase = .loading
      ∧ (run initClient ([.answer, .continueBtn, .fetchSettled] ++
          [.answer, .continueBtn, .fetchSettled] ++
          [.answer, .continueBtn])).phase = .game
      ∧ (run initClient ([.answer, .continueBtn, .fetchSettled] ++
          [.answer, .continueBtn, .fetchSettled] ++
          ([.answer, .continueBtn] ++ List.replicate 51 .tick ++ [.fetchSettled]) ++
          [.answer, .continueBtn])).phase = .loading
      ∧ (run initClient ([.answer, .continueBtn, .fetchSettled] ++
          [.answer, .continueBtn, .fetchSettled] ++
          ([.answer, .continueBtn] ++ List.replicate 51 .tick ++ [.fetchSettled]) ++
          [.answer, .continueBtn, .fetchSettled] ++
          [.answer, .continueBtn])).phase = .loading
      ∧ (run initClient ([.answer, .continueBtn, .fetchSettled] ++
          [.answer, .continueBtn, .fetchSettled] ++
          ([.answer, .continueBtn] ++ List.replicate 51 .tick ++ [.fetchSettled]) ++
          [.answer, .continueBtn, .fetchSettled] ++
          [.answer, .continueBtn, .fetchSettled] ++
          [.answer, .continueBtn])).phase = .game) := by
  constructor
  · intro s hp hr
    have hstep : step s .continueBtn = handleContinue s := if_pos ⟨hp, hr⟩
    rw [hstep, handleContinue_eq]
    by_cases h : s.questionsAnswered % 3 = 0 ∧ 0 < s.questionsAnswered
    · rw [if_pos h]
      exact ⟨⟨fun _ => h, fun _ => rfl⟩, fun hc => absurd h hc⟩
    · rw [if_neg h]
      exact ⟨⟨fun hg => GamePhase.noConfusion hg, fun hg => absurd hg h⟩,
        fun _ => ⟨rfl, rfl⟩⟩
  · refine ⟨by decide, by decide, by decide, by decide, by decide, by decide, by decide⟩

/-- Witness for C6 at the concrete state reached after three answered
questions. -/
theorem continue_transition_spec_witness :
    (((step (ClientState.mk .result 3 0 true false 3) .continueBtn).phase = .game)
      ↔ (3 % 3 = 0 ∧ 0 < 3))
    ∧ (¬ (3 % 3 = 0 ∧ 0 < 3) →
        (step (ClientState.mk .result 3 0 true false 3) .continueBtn).phase = .loading
        ∧ (step (step (ClientState.mk .result 3 0 true false 3) .continueBtn)
            .fetchSettled).phase = .question) :=
  continue_transition_spec.1 (ClientState.mk .result 3 0 true false 3) rfl rfl

/-- C7: the game interstitial is tick-driven — 50 tick periods make up the
fixed total duration; each tick below 100 advances progress by exactly 2;
from progress 0, 50 ticks reach exactly 100; the tick at 100 resets
progress to 0, moves to the question phase and triggers the fetch of the
next question; and no user input (answer or continue) changes the state
while in the game phase. -/
theorem gameInterstitial_spec :
    (tickPeriod * 50 = GAME_DURATION)
    ∧ (∀ s : ClientState, s.phase = .game → s.gameProgress < 100 →
        step s .tick = { s with gameProgress := s.gameProgress + 2 })
    ∧ (∀ s : ClientState, s.phase = .game → s.gameProgress = 0 →
        run s (List.replicate 50 .tick) = { s with gameProgress := 100 })
    ∧ (∀ s : ClientState, s.phase = .game → 100 ≤ s.gameProgress →
        step s .tick = { s with gameProgress := 0, phase := .question,
                                fetchPending := true })
    ∧ (∀ s : ClientState, s.phase = .game →
        step s .answer = s ∧ step s .continueBtn = s) := by
  refine ⟨rfl, fun s hp hlt => ?_, fun s hp h0 => ?_, fun s hp hge => ?_,
    fun s hp => ⟨?_, ?_⟩⟩
  · simp [step, gameTick, hp, Nat.not_le.mpr hlt]
  · rw [run_ticks 50 s hp (by omega)]
    obtain ⟨p, qa, gp, hr, fp, ss⟩ := s
    obtain rfl : gp = 0 := h0
    rfl
  · simp [step, gameTick, hp, hge]
  · simp [step, handleAnswer, hp]
  · simp [step, hp]

/-- Witness for C7: a concrete game-phase state run through 50 ticks and
the transition tick. -/
theorem gameInterstitial_spec_witness :
    run (ClientState.mk .game 3 0 false false 3) (List.replicate 50 .tick)
      = ClientState.mk .game 3 100 false false 3
    ∧ step (ClientState.mk .game 3 100 false false 3) .tick
      = ClientState.mk .question 3 0 false true 3
    ∧ step (ClientState.mk .game 3 40 false false 3) .answer
      = ClientState.mk .game 3 40 false false 3 :=
  ⟨gameInterstitial_spec.2.2.1 (ClientState.mk .game 3 0 false false 3) rfl rfl,
   gameInterstitial_spec.2.2.2.1 (ClientState.mk .game 3 100 false false 3) rfl
     (by norm_num),
   (gameInterstitial_spec.2.2.2.2 (ClientState.mk .game 3 40 false false 3) rfl).1⟩

/-- C8: an answer submission in the question phase (with no result yet)
grades once and moves to the result phase; any answer event in any other
phase, or once a result is present, is a no-op — the state, including the
count of submissions sent, is unchanged — and in particular a second
answer right after a graded one changes nothing. -/
theorem answer_once_spec (s : ClientState) :
    (s.phase = .question → s.hasResult = false →
      step s .answer = { s with
        phase := .result,
        hasResult := true,
        questionsAnswered := s.questionsAnswered + 1,
        submissionsSent := s.submissionsSent + 1 })
    ∧ (s.hasResult = true ∨ s.phase ≠ .question → step s .answer = s)
    ∧ step (step s .answer) .answer = step s .answer := by
  refine ⟨fun hp hr => ?_, fun h => ?_, ?_⟩
  · simp [step, handleAnswer, hp, hr]
  · rcases h with h | h
    · simp [step, handleAnswer, h]
    · simp [step, handleAnswer, h]
  · by_cases hr : s.hasResult = true
    · simp [step, handleAnswer, hr]
    · by_cases hp : s.phase = .question
      · have h1 : step s .answer = { s with
            phase := .result,
            hasResult := true,
            questionsAnswered := s.questionsAnswered + 1,
            submissionsSent := s.submissionsSent + 1 } := by
          simp [step, handleAnswer, hp, hr]
        rw [h1]
        simp [step, handleAnswer]
      · simp [step, handleAnswer, hp]

/-- Witness for C8: a concrete first answer is graded, a second answer in
the result phase is a no-op. -/
theorem answer_once_spec_witness :
    step (ClientState.mk .question 0 0 false false 0) .answer
      = ClientState.mk .result 1 0 true false 1
    ∧ step (ClientState.mk .result 1 0 true false 1) .answer
      = ClientState.mk .result 1 0 true false 1 :=
  ⟨(answer_once_spec (ClientState.mk .question 0 0 false false 0)).1 rfl rfl,
   (answer_once_spec (ClientState.mk .result 1 0 true false 1)).2.1 (Or.inl rfl)⟩

/-- C9: for any random ordering (any permutation of the rendered option
list), the options shown equal {correctAnswer} ∪ distractors as a set;
under the authored-content invariant that the correct answer is not a
distractor it appears exactly once, and every distractor keeps its
multiplicity. -/
theorem options_set_spec (q : Question) (shown : List String)
    (hperm : shown.Perm (allOptions q))
    (hnodup : q.correctAnswer ∉ q.distractors) :
    shown.toFinset = insert q.correctAnswer q.distractors.toFinset
    ∧ shown.count q.correctAnswer = 1
    ∧ (∀ d ∈ q.distractors, shown.count d = q.distractors.count d) := by
  refine ⟨?_, ?_, fun d hd => ?_⟩
  · rw [List.toFinset_eq_of_perm _ _ hperm]
    simp [allOptions]
  · rw [hperm.count_eq]
    simp [allOptions, List.count_cons_self, List.count_eq_zero.mpr hnodup]
  · rw [hperm.count_eq]
    have hne : d ≠ q.correctAnswer := fun h => hnodup (h ▸ hd)
    simp [allOptions, List.count_cons_of_ne hne]

/-- Witness for C9: a concrete shuffle of the demo question's options. -/
theorem options_set_spec_witness :
    (["7", "8", "9", "6"] : List String).toFinset
      = insert demoQuestion.correctAnswer demoQuestion.distractors.toFinset
    ∧ (["7", "8", "9", "6"] : List String).count demoQuestion.correctAnswer = 1
    ∧ (∀ d ∈ demoQuestion.distractors,
        (["7", "8", "9", "6"] : List String).count d
          = demoQuestion.distractors.count d) :=
  options_set_spec demoQuestion ["7", "8", "9", "6"] (by decide) (by decide)

end EduKid
